import Mathlib

/-!
Verification of the SimBoard dual-authentication and API-token lifecycle
subsystem, together with the frontend routing and field-permission logic.

The backend auth components (TokenStore, TokenIssuer, TokenValidator,
AuthResolver) are not present in the repository snapshot; they are modelled
from the specification, as marked on each definition. The frontend
definitions (createRoutes, ProtectedRoute, canEditSimulationField) are
shallow embeddings of the TypeScript source.
-/

namespace SimBoard

/-- Modelled from the spec: role of a Principal, §3 DATA MODEL
(role ∈ \x7bUSER, ADMIN, SERVICE_ACCOUNT\x7d). -/
inductive Role where
  | USER
  | ADMIN
  | SERVICE_ACCOUNT
deriving DecidableEq, Repr

/-- Modelled from the spec: a Principal identity (§3): id, email, role,
active flag. -/
structure Principal where
  id : Nat
  email : String
  role : Role
  active : Bool
deriving DecidableEq, Repr

/-- Raw bearer credentials are modelled as lists of characters. -/
abbrev Raw := List Char

/-- Modelled from the spec: the one-way digest of the full encoded secret
(§4.1, "compute a one-way digest (e.g., SHA-256) of the full encoded
secret"). Modelled as a concrete deterministic digest on character lists;
the theorems rely only on determinism and on per-store digest uniqueness,
exactly what the spec guarantees via the uniqueness constraint. -/
def digest (r : Raw) : Nat :=
  r.foldl (fun a c => a * 2097152 + c.toNat + 1) 1

/-- Modelled from the spec: ApiToken record (§3): id, name, token_hash
(digest of the secret), owner_id, created_at, optional expires_at,
monotonic revoked flag. Timestamps are modelled as naturals. -/
structure ApiToken where
  id : Nat
  name : String
  token_hash : Nat
  owner_id : Nat
  created_at : Nat
  expires_at : Option Nat
  revoked : Bool
deriving DecidableEq, Repr

/-- Modelled from the spec: TokenStore persistence (§4.5), modelled as the
list of persisted rows in insertion order. -/
abbrev TokenStore := List ApiToken

/-- Modelled from the spec: TokenStore.create (§4.5) appends a new row. -/
def create (t : ApiToken) (s : TokenStore) : TokenStore :=
  s ++ [t]

/-- Modelled from the spec: TokenStore.find_by_hash (§4.5), the indexed
exact-match query by digest. -/
def find_by_hash (h : Nat) (s : TokenStore) : Option ApiToken :=
  s.find? (fun t => t.token_hash == h)

/-- Lookup of a token row by its id. -/
def findById (i : Nat) (s : TokenStore) : Option ApiToken :=
  s.find? (fun t => t.id == i)

/-- Sets the revoked flag of a row, leaving every other field unchanged. -/
def markRevoked (t : ApiToken) : ApiToken :=
  ⟨t.id, t.name, t.token_hash, t.owner_id, t.created_at, t.expires_at, true⟩

/-- Modelled from the spec: TokenStore.revoke(id) (§4.5), idempotent; it
never errors and never clears the flag. -/
def revoke (i : Nat) (s : TokenStore) : TokenStore :=
  s.map (fun t => if t.id == i then markRevoked t else t)

/-- Modelled from the spec: the operations that mutate the store (§3
Lifecycle: created only by TokenIssuer, mutated only by revoke, never
hard-deleted). -/
inductive StoreOp where
  | opCreate (t : ApiToken)
  | opRevoke (i : Nat)
deriving DecidableEq, Repr

/-- Applies one store operation. -/
def applyOp (s : TokenStore) : StoreOp → TokenStore
  | .opCreate t => create t s
  | .opRevoke i => revoke i s

/-- Applies a sequence of store operations, oldest first. -/
def applyOps (s : TokenStore) (ops : List StoreOp) : TokenStore :=
  ops.foldl applyOp s

/-- Modelled from the spec: the fixed, recognizable marker prepended to
every encoded secret (§4.1, "encode it with a fixed, recognizable
prefix"). -/
def tokenMarker : Raw := ['s', 'b', 't', 'k', '_']

/-- Modelled from the spec: encoding of a generated secret (§4.1): the
fixed marker followed by the random body. -/
def encodeSecret (secret : Raw) : Raw := tokenMarker ++ secret

/-- Modelled from the spec: read access to the external Principal store by
id (§6, collaborator interfaces). -/
def findPrincipal (i : Nat) (ps : List Principal) : Option Principal :=
  ps.find? (fun p => p.id == i)

/-- Modelled from the spec: TokenValidator internal failure taxonomy
(§4.2, §7): format rejection, TokenNotFound, TokenRevoked, TokenExpired,
IntegrityViolation. Internally distinguishable for logging. -/
inductive ValidationError where
  | BadFormat
  | TokenNotFound
  | TokenRevoked
  | TokenExpired
  | IntegrityViolation
deriving DecidableEq, Repr

/-- Modelled from the spec: step 5 of TokenValidator (§4.2): resolve the
owning Principal and independently verify role == SERVICE_ACCOUNT and
active == true; anything else is an IntegrityViolation. -/
def resolveOwner (ps : List Principal) (t : ApiToken) : Except ValidationError Principal :=
  match findPrincipal t.owner_id ps with
  | some p =>
    if p.role = Role.SERVICE_ACCOUNT ∧ p.active = true then Except.ok p
    else Except.error ValidationError.IntegrityViolation
  | none => Except.error ValidationError.IntegrityViolation

/-- Modelled from the spec: TokenValidator (§4.2): format check, digest
lookup, revocation check, expiry check (expiry is in the past when
expires_at < now), then owner resolution. -/
def validateToken (ps : List Principal) (s : TokenStore) (now : Nat) (raw : Raw) :
    Except ValidationError Principal :=
  if tokenMarker.isPrefixOf raw then
    match find_by_hash (digest raw) s with
    | none => Except.error ValidationError.TokenNotFound
    | some t =>
      if t.revoked then Except.error ValidationError.TokenRevoked
      else
        match t.expires_at with
        | some e =>
          if e < now then Except.error ValidationError.TokenExpired
          else resolveOwner ps t
        | none => resolveOwner ps t
  else Except.error ValidationError.BadFormat

/-- Modelled from the spec: the externally observable authentication
outcome (§7): an authorized Principal, or the single generic Unauthorized
carrying no detail. -/
inductive ExternalAuth where
  | authorized (p : Principal)
  | unauthorized
deriving DecidableEq, Repr

/-- Modelled from the spec: the collapse performed at the external
boundary (§4.2, §7): every internal TokenValidator failure becomes the
same generic Unauthorized outcome. -/
def toExternal : Except ValidationError Principal → ExternalAuth
  | Except.ok p => ExternalAuth.authorized p
  | Except.error _ => ExternalAuth.unauthorized

/-- Modelled from the spec: TokenValidator as observed from outside the
boundary. -/
def validateExternal (ps : List Principal) (s : TokenStore) (now : Nat) (raw : Raw) :
    ExternalAuth :=
  toExternal (validateToken ps s now raw)

/-- Modelled from the spec: issuance-time validation errors (§4.1, §7). -/
inductive IssueError where
  | InvalidOwner
  | InvalidExpiry
deriving DecidableEq, Repr

/-- Modelled from the spec: TokenIssuer (§4.1). The random generation of
the secret is made explicit as the `secret` argument; the
collision-regeneration loop guarantees the committed secret's digest is
fresh, which theorems state as a freshness hypothesis. On success it
returns the persisted record, the raw encoded secret (returned exactly
once), and the store with the new row committed. -/
def issueToken (ps : List Principal) (s : TokenStore) (now : Nat) (newId : Nat)
    (name : String) (owner_id : Nat) (expires_at : Option Nat) (secret : Raw) :
    Except IssueError (ApiToken × Raw × TokenStore) :=
  match findPrincipal owner_id ps with
  | none => Except.error IssueError.InvalidOwner
  | some p =>
    if p.role = Role.SERVICE_ACCOUNT ∧ p.active = true then
      match expires_at with
      | some e =>
        if now < e then
          let t : ApiToken :=
            ⟨newId, name, digest (encodeSecret secret), owner_id, now, some e, false⟩
          Except.ok (t, encodeSecret secret, create t s)
        else Except.error IssueError.InvalidExpiry
      | none =>
        let t : ApiToken :=
          ⟨newId, name, digest (encodeSecret secret), owner_id, now, none, false⟩
        Except.ok (t, encodeSecret secret, create t s)
    else Except.error IssueError.InvalidOwner

/-- Modelled from the spec: the store as it stands after an issuance
attempt — unchanged when issuance fails, extended by the new row when it
succeeds. -/
def issueStoreAfter (ps : List Principal) (s : TokenStore) (now : Nat) (newId : Nat)
    (name : String) (owner_id : Nat) (expires_at : Option Nat) (secret : Raw) :
    TokenStore :=
  match issueToken ps s now newId name owner_id expires_at secret with
  | Except.ok (_, _, st) => st
  | Except.error _ => s

/-- Modelled from the spec: AuthResolver (§4.3). The OAuth collaborator's
resolution result and the optional Bearer header are the per-request
inputs; OAuth is consulted first and unconditionally, and TokenValidator
runs only when OAuth failed and a Bearer header is present. The second
component of the result records whether TokenValidator was invoked, the
instrumentation the spec's ordering scenario refers to. A successful
token principal's role is re-verified to be SERVICE_ACCOUNT. -/
def authResolver (oauth : Option Principal) (bearer : Option Raw)
    (ps : List Principal) (s : TokenStore) (now : Nat) : ExternalAuth × Bool :=
  match oauth with
  | some p => (ExternalAuth.authorized p, false)
  | none =>
    match bearer with
    | none => (ExternalAuth.unauthorized, false)
    | some raw =>
      match validateToken ps s now raw with
      | Except.ok p =>
        if p.role = Role.SERVICE_ACCOUNT then (ExternalAuth.authorized p, true)
        else (ExternalAuth.unauthorized, true)
      | Except.error _ => (ExternalAuth.unauthorized, true)

/-- Modelled from the spec: the record shape returned by GET /tokens and
TokenStore.list (§4.5, §6): id, name, owner_id, created_at, expires_at,
revoked — never the hash or the raw secret. -/
structure TokenView where
  id : Nat
  name : String
  owner_id : Nat
  created_at : Nat
  expires_at : Option Nat
  revoked : Bool
deriving DecidableEq, Repr

/-- Projection of a stored row to its listing view. -/
def toView (t : ApiToken) : TokenView :=
  ⟨t.id, t.name, t.owner_id, t.created_at, t.expires_at, t.revoked⟩

/-- Insertion step of the created_at-descending sort. -/
def insertByCreatedDesc (t : ApiToken) : List ApiToken → List ApiToken
  | [] => [t]
  | u :: us =>
    if u.created_at ≤ t.created_at then t :: u :: us
    else u :: insertByCreatedDesc t us

/-- Insertion sort by created_at descending. -/
def sortByCreatedDesc : List ApiToken → List ApiToken
  | [] => []
  | t :: ts => insertByCreatedDesc t (sortByCreatedDesc ts)

/-- Modelled from the spec: TokenStore.list with the optional owner
filter (§4.5): rows ordered by created_at descending, projected to views
that exclude the hash. -/
def listTokens (ownerFilter : Option Nat) (s : TokenStore) : List TokenView :=
  (sortByCreatedDesc (match ownerFilter with
    | some o => s.filter (fun t => t.owner_id == o)
    | none => s)).map toView

/-- Agreement of two rows on every field except token_hash. -/
def agreeExceptHash (a b : ApiToken) : Prop :=
  a.id = b.id ∧ a.name = b.name ∧ a.owner_id = b.owner_id ∧
  a.created_at = b.created_at ∧ a.expires_at = b.expires_at ∧ a.revoked = b.revoked

/-- Two stores that differ at most in the token_hash values of their
rows. -/
def sameExceptHash : TokenStore → TokenStore → Prop
  | [], [] => True
  | t :: ts, u :: us => agreeExceptHash t u ∧ sameExceptHash ts us
  | _, _ => False

/-- Elements (React components) appearing in the route table of
frontend/src/routes/routes.tsx. -/
inductive UIElement where
  | homePage
  | browsePage
  | simulationsPage
  | simulationDetailsRoute
  | comparePage
  | protectedRouteEl
  | uploadPage
  | docsPage
  | authCallback
  | notFound
deriving DecidableEq, Repr

/-- Shallow embedding of a react-router RouteObject: optional path,
optional element, nested children. -/
inductive RouteObject where
  | mk (path : Option String) (element : Option UIElement) (children : List RouteObject)

/-- Path of a route entry. -/
def RouteObject.path : RouteObject → Option String
  | .mk p _ _ => p

/-- Element of a route entry. -/
def RouteObject.element : RouteObject → Option UIElement
  | .mk _ e _ => e

/-- Children of a route entry. -/
def RouteObject.children : RouteObject → List RouteObject
  | .mk _ _ c => c

/-- Shallow embedding of createRoutes from frontend/src/routes/routes.tsx:
the returned route table in source order. The component props passed to
createRoutes do not affect the table's structure, so they are omitted. -/
def createRoutes : List RouteObject :=
  [ RouteObject.mk (some "/") (some UIElement.homePage) [],
    RouteObject.mk (some "/browse") (some UIElement.browsePage) [],
    RouteObject.mk (some "/simulations") (some UIElement.simulationsPage) [],
    RouteObject.mk (some "/simulations/:id") (some UIElement.simulationDetailsRoute) [],
    RouteObject.mk (some "/compare") (some UIElement.comparePage) [],
    RouteObject.mk none (some UIElement.protectedRouteEl)
      [RouteObject.mk (some "/upload") (some UIElement.uploadPage) []],
    RouteObject.mk (some "/upload") (some UIElement.uploadPage) [],
    RouteObject.mk (some "/docs") (some UIElement.docsPage) [],
    RouteObject.mk (some "/auth/callback") (some UIElement.authCallback) [],
    RouteObject.mk (some "*") (some UIElement.notFound) [] ]

/-- What the ProtectedRoute component renders. -/
inductive ProtectedRender where
  | checkingAuth
  | loginCard
  | outlet
deriving DecidableEq, Repr

/-- Authentication state delivered by the useAuth hook. -/
structure AuthState where
  isAuthenticated : Bool
  loading : Bool
deriving DecidableEq, Repr

/-- Shallow embedding of ProtectedRoute from
frontend/src/routes/ProtectedRoute.tsx: loading shows the checking
indicator, unauthenticated shows the LoginCard, otherwise the Outlet. -/
def ProtectedRoute (a : AuthState) : ProtectedRender :=
  if a.loading then ProtectedRender.checkingAuth
  else if !a.isAuthenticated then ProtectedRender.loginCard
  else ProtectedRender.outlet

/-- Shallow embedding of SimulationFieldDef from simulationFields.ts,
keeping the fields the permission helper reads plus name and label; the
optional booleans of the TypeScript type default to false (undefined is
falsy in the source's conditionals). -/
structure SimulationFieldDef where
  name : String
  label : String
  editableAfterCreate : Bool
  editableByOwner : Bool := false
  editableByAdmin : Bool := false
  system : Bool := false
deriving DecidableEq, Repr

/-- Editing context of canEditSimulationField. -/
structure EditContext where
  isOwner : Bool
  isAdmin : Bool
deriving DecidableEq, Repr

/-- Shallow embedding of canEditSimulationField from simulationFields.ts
(src/unnamed/part_004, lines 313-323). -/
def canEditSimulationField (field : SimulationFieldDef) (ctx : EditContext) : Bool :=
  if field.system then false
  else if !field.editableAfterCreate then false
  else if field.editableByAdmin && ctx.isAdmin then true
  else if field.editableByOwner && ctx.isOwner then true
  else false

lemma findById_create (i : Nat) (t : ApiToken) (s : TokenStore) (u : ApiToken)
    (h : findById i s = some u) : findById i (create t s) = some u := by
  unfold findById create at *
  rw [List.find?_append, h]
  rfl

lemma findById_revoke (i j : Nat) (s : TokenStore) (u : ApiToken)
    (h : findById i s = some u) :
    findById i (revoke j s) = some (if u.id == j then markRevoked u else u) := by
  induction s with
  | nil => simp [findById] at h
  | cons t ts ih =>
    unfold findById revoke at *
    by_cases hi : (t.id == i) = true
    · have hfu : ((if t.id == j then markRevoked t else t).id == i) = true := by
        by_cases hj : (t.id == j) = true <;> simp_all [markRevoked]
      simp only [List.map_cons, List.find?_cons, hfu]
      simp only [List.find?_cons, hi] at h
      cases h
      rfl
    · have hfu : ((if t.id == j then markRevoked t else t).id == i) = false := by
        by_cases hj : (t.id == j) = true <;> simp_all [markRevoked]
      rw [Bool.not_eq_true] at hi
      simp only [List.map_cons, List.find?_cons, hfu]
      simp only [List.find?_cons, hi] at h
      exact ih h

lemma revoked_mono_step (op : StoreOp) (s : TokenStore) (i : Nat) (u : ApiToken)
    (hfind : findById i s = some u) (hrev : u.revoked = true) :
    ∃ u', findById i (applyOp s op) = some u' ∧ u'.revoked = true ∧ u'.id = u.id := by
  cases op with
  | opCreate t =>
    exact ⟨u, findById_create i t s u hfind, hrev, rfl⟩
  | opRevoke j =>
    refine ⟨if u.id == j then markRevoked u else u, findById_revoke i j s u hfind, ?_, ?_⟩
    · by_cases hj : u.id == j <;> simp [hj, markRevoked, hrev]
    · by_cases hj : u.id == j <;> simp [hj, markRevoked]

end SimBoard

namespace SimBoard

/-- Claim C4 — revocation is monotonic: across any sequence of TokenStore
operations, a row whose revoked flag is true keeps the flag true; no
operation performs a Revoked → Active transition. -/
theorem revocation_monotonic (ops : List StoreOp) (s : TokenStore) (i : Nat)
    (u : ApiToken) (hfind : findById i s = some u) (hrev : u.revoked = true) :
    ∃ u', findById i (applyOps s ops) = some u' ∧ u'.revoked = true := by
  induction ops generalizing s u with
  | nil => exact ⟨u, hfind, hrev⟩
  | cons op ops ih =>
    obtain ⟨u', h1, h2, _⟩ := revoked_mono_step op s i u hfind hrev
    exact ih (applyOp s op) u' h1 h2

/-- Witness for C4: a concrete revoked row stays revoked across a
create-then-revoke-other sequence. -/
theorem revocation_monotonic_witness :
    findById 7 [(⟨7, "t", 5, 1, 0, none, true⟩ : ApiToken)] = some ⟨7, "t", 5, 1, 0, none, true⟩ ∧
    (⟨7, "t", 5, 1, 0, none, true⟩ : ApiToken).revoked = true ∧
    ∃ u', findById 7 (applyOps [⟨7, "t", 5, 1, 0, none, true⟩]
        [StoreOp.opCreate ⟨8, "u", 6, 1, 1, none, false⟩, StoreOp.opRevoke 8]) = some u' ∧
      u'.revoked = true := by
  refine ⟨by decide, by decide, ?_⟩
  exact revocation_monotonic _ _ 7 ⟨7, "t", 5, 1, 0, none, true⟩ (by decide) (by decide)

lemma revoke_revoke (i : Nat) (s : TokenStore) :
    revoke i (revoke i s) = revoke i s := by
  unfold revoke
  rw [List.map_map]
  apply List.map_congr_left
  intro t _
  rcases t with ⟨tid, tn, th, tw, tc, te, tr⟩
  by_cases hj : tid = i <;> simp [Function.comp, markRevoked, hj]

/-- Claim C5 — revoke(id) is idempotent: both calls succeed (revoke is a
total function on the store), the row's revoked flag is true after each
call, and the second call leaves the store exactly as the first left it. -/
theorem revoke_idempotent (s : TokenStore) (i : Nat) (u : ApiToken)
    (h : findById i s = some u) :
    revoke i (revoke i s) = revoke i s ∧
    (∃ u1, findById i (revoke i s) = some u1 ∧ u1.revoked = true) ∧
    (∃ u2, findById i (revoke i (revoke i s)) = some u2 ∧ u2.revoked = true) := by
  have hid : (u.id == i) = true := by
    have := List.find?_some h
    simpa using this
  have h1 : findById i (revoke i s) = some (markRevoked u) := by
    have := findById_revoke i i s u h
    simpa [hid] using this
  refine ⟨revoke_revoke i s, ⟨markRevoked u, h1, rfl⟩, ?_⟩
  rw [revoke_revoke i s]
  exact ⟨markRevoked u, h1, rfl⟩

/-- Witness for C5: double revocation of a concrete store. -/
theorem revoke_idempotent_witness :
    findById 3 [(⟨3, "a", 9, 1, 0, none, false⟩ : ApiToken)] = some ⟨3, "a", 9, 1, 0, none, false⟩ ∧
    revoke 3 (revoke 3 [(⟨3, "a", 9, 1, 0, none, false⟩ : ApiToken)])
      = revoke 3 [(⟨3, "a", 9, 1, 0, none, false⟩ : ApiToken)] := by
  refine ⟨by decide, ?_⟩
  exact (revoke_idempotent [⟨3, "a", 9, 1, 0, none, false⟩] 3
    ⟨3, "a", 9, 1, 0, none, false⟩ (by decide)).1

lemma marker_isPrefixOf_encode (r : Raw) :
    tokenMarker.isPrefixOf (encodeSecret r) = true := by
  rw [encodeSecret, List.isPrefixOf_iff_prefix]
  exact List.prefix_append tokenMarker r

lemma find_by_hash_create_fresh (h : Nat) (t : ApiToken) (s : TokenStore)
    (hfresh : find_by_hash h s = none) (ht : t.token_hash = h) :
    find_by_hash h (create t s) = some t := by
  unfold find_by_hash create at *
  rw [List.find?_append, hfresh]
  simp [ht]

/-- Claim C1 — issuance/validation round trip: a token minted by
TokenIssuer validates successfully with the raw secret returned at
issuance and resolves to the owning Principal, at every validation time
at which its expiry (when set) has not passed, the token not having been
revoked. The freshness hypothesis is the digest-uniqueness guarantee of
the issuer's collision-regeneration loop. -/
theorem issue_validate_roundtrip (ps : List Principal) (s : TokenStore)
    (issuedAt vnow newId : Nat) (name : String) (owner_id : Nat)
    (expires_at : Option Nat) (secret : Raw) (tok : ApiToken) (raw : Raw)
    (st : TokenStore)
    (hiss : issueToken ps s issuedAt newId name owner_id expires_at secret
      = Except.ok (tok, raw, st))
    (hfresh : find_by_hash (digest (encodeSecret secret)) s = none)
    (hexp : ∀ e, expires_at = some e → vnow ≤ e) :
    ∃ p, findPrincipal owner_id ps = some p ∧
      validateToken ps st vnow raw = Except.ok p := by
  unfold issueToken at hiss
  cases hp : findPrincipal owner_id ps with
  | none => rw [hp] at hiss; exact absurd hiss (by simp)
  | some p =>
    rw [hp] at hiss
    dsimp only at hiss
    by_cases hrole : p.role = Role.SERVICE_ACCOUNT ∧ p.active = true
    · rw [if_pos hrole] at hiss
      refine ⟨p, rfl, ?_⟩
      cases hexpm : expires_at with
      | some e =>
        rw [hexpm] at hiss
        dsimp only at hiss
        by_cases hfut : issuedAt < e
        · rw [if_pos hfut] at hiss
          simp only [Except.ok.injEq, Prod.mk.injEq] at hiss
          obtain ⟨h1, h2, h3⟩ := hiss
          subst h1 h2 h3
          unfold validateToken
          rw [if_pos (marker_isPrefixOf_encode secret)]
          rw [find_by_hash_create_fresh _ _ _ hfresh rfl]
          dsimp only
          rw [if_neg (not_lt.mpr (hexp e hexpm))]
          unfold resolveOwner
          dsimp only
          rw [hp]
          dsimp only
          rw [if_pos hrole]
          simp
        · rw [if_neg hfut] at hiss; exact absurd hiss (by simp)
      | none =>
        rw [hexpm] at hiss
        dsimp only at hiss
        simp only [Except.ok.injEq, Prod.mk.injEq] at hiss
        obtain ⟨h1, h2, h3⟩ := hiss
        subst h1 h2 h3
        unfold validateToken
        rw [if_pos (marker_isPrefixOf_encode secret)]
        rw [find_by_hash_create_fresh _ _ _ hfresh rfl]
        dsimp only
        unfold resolveOwner
        dsimp only
        rw [hp]
        dsimp only
        rw [if_pos hrole]
        simp
    · rw [if_neg hrole] at hiss; exact absurd hiss (by simp)

/-- Witness for C1: a concrete issuance followed by validation resolves
to the owner. -/
theorem issue_validate_roundtrip_witness :
    ∃ p, findPrincipal 1 [(⟨1, "svc", Role.SERVICE_ACCOUNT, true⟩ : Principal)] = some p ∧
      validateToken [⟨1, "svc", Role.SERVICE_ACCOUNT, true⟩]
        [⟨100, "ci", digest (encodeSecret ['a', 'b']), 1, 10, some 50, false⟩] 20
        (encodeSecret ['a', 'b']) = Except.ok p := by
  have h := issue_validate_roundtrip [⟨1, "svc", Role.SERVICE_ACCOUNT, true⟩] [] 10 20 100
    "ci" 1 (some 50) ['a', 'b']
    ⟨100, "ci", digest (encodeSecret ['a', 'b']), 1, 10, some 50, false⟩
    (encodeSecret ['a', 'b'])
    [⟨100, "ci", digest (encodeSecret ['a', 'b']), 1, 10, some 50, false⟩]
    (by rfl) (by rfl) (by intro e he; cases he; decide)
  simpa [create] using h

/-- Claim C2 — AuthResolver ordering: when OAuth resolution succeeds the
request resolves to the OAuth Principal and TokenValidator is never
invoked, whatever Bearer header is present. -/
theorem oauth_first_short_circuits (p : Principal) (bearer : Option Raw)
    (ps : List Principal) (s : TokenStore) (now : Nat)
    (oauth : Option Principal) (hoauth : oauth = some p) :
    authResolver oauth bearer ps s now = (ExternalAuth.authorized p, false) := by
  subst hoauth
  rfl

/-- Witness for C2: a valid OAuth session plus a garbage Bearer header
resolves via OAuth without invoking TokenValidator. -/
theorem oauth_first_short_circuits_witness :
    authResolver (some ⟨2, "u", Role.USER, true⟩) (some ['g', 'x'])
      [] [] 0 = (ExternalAuth.authorized ⟨2, "u", Role.USER, true⟩, false) :=
  oauth_first_short_circuits ⟨2, "u", Role.USER, true⟩ (some ['g', 'x']) [] [] 0
    (some ⟨2, "u", Role.USER, true⟩) rfl

/-- Claim C3 — anti-enumeration collapse: whichever internal failure
TokenValidator hits on any raw bearer string, the externally observable
outcome is the same single generic Unauthorized value, so no two failing
validations are externally distinguishable. -/
theorem validator_failures_collapse (ps₁ ps₂ : List Principal)
    (s₁ s₂ : TokenStore) (now₁ now₂ : Nat) (raw₁ raw₂ : Raw)
    (e₁ e₂ : ValidationError)
    (h₁ : validateToken ps₁ s₁ now₁ raw₁ = Except.error e₁)
    (h₂ : validateToken ps₂ s₂ now₂ raw₂ = Except.error e₂) :
    validateExternal ps₁ s₁ now₁ raw₁ = ExternalAuth.unauthorized ∧
    validateExternal ps₁ s₁ now₁ raw₁ = validateExternal ps₂ s₂ now₂ raw₂ := by
  unfold validateExternal
  rw [h₁, h₂]
  exact ⟨rfl, rfl⟩

/-- Witness for C3: a not-found failure and a revoked-token failure
produce the identical external Unauthorized outcome. -/
theorem validator_failures_collapse_witness :
    validateExternal [] [] 0 (encodeSecret ['q']) = ExternalAuth.unauthorized ∧
    validateExternal [] [] 0 (encodeSecret ['q'])
      = validateExternal [] [⟨1, "t", digest (encodeSecret ['r']), 1, 0, none, true⟩] 0
          (encodeSecret ['r']) :=
  validator_failures_collapse [] [] [] [⟨1, "t", digest (encodeSecret ['r']), 1, 0, none, true⟩]
    0 0 (encodeSecret ['q']) (encodeSecret ['r'])
    ValidationError.TokenNotFound ValidationError.TokenRevoked (by rfl) (by rfl)

/-- Claim C6 — issuance preconditions: an owner that is missing, inactive
or not a SERVICE_ACCOUNT (in particular a USER) fails with InvalidOwner;
a supplied expires_at not strictly in the future fails with InvalidExpiry
for a valid owner; in either failure case the store is unchanged. -/
theorem issuance_preconditions (ps : List Principal) (s : TokenStore)
    (now newId : Nat) (name : String) (owner_id : Nat)
    (expires_at : Option Nat) (secret : Raw) :
    ((∀ p, findPrincipal owner_id ps = some p →
        ¬ (p.role = Role.SERVICE_ACCOUNT ∧ p.active = true)) →
      issueToken ps s now newId name owner_id expires_at secret
        = Except.error IssueError.InvalidOwner) ∧
    (∀ p e, findPrincipal owner_id ps = some p →
      p.role = Role.SERVICE_ACCOUNT ∧ p.active = true →
      expires_at = some e → e ≤ now →
      issueToken ps s now newId name owner_id expires_at secret
        = Except.error IssueError.InvalidExpiry) ∧
    (∀ err, issueToken ps s now newId name owner_id expires_at secret
        = Except.error err →
      issueStoreAfter ps s now newId name owner_id expires_at secret = s) := by
  refine ⟨?_, ?_, ?_⟩
  · intro hbad
    unfold issueToken
    cases hp : findPrincipal owner_id ps with
    | none => rfl
    | some p =>
      dsimp only
      rw [if_neg (hbad p hp)]
  · intro p e hp hrole hexp hpast
    unfold issueToken
    rw [hp]
    dsimp only
    rw [if_pos hrole, hexp]
    dsimp only
    rw [if_neg (not_lt.mpr hpast)]
  · intro err herr
    unfold issueStoreAfter
    rw [herr]

/-- Witness for C6: a USER-role owner is rejected with InvalidOwner, a
stale expiry is rejected with InvalidExpiry, and the store stays empty. -/
theorem issuance_preconditions_witness :
    issueToken [(⟨2, "u", Role.USER, true⟩ : Principal)] [] 10 100 "ci" 2 none ['a']
      = Except.error IssueError.InvalidOwner ∧
    issueToken [(⟨1, "svc", Role.SERVICE_ACCOUNT, true⟩ : Principal)] [] 10 100 "ci" 1
      (some 10) ['a'] = Except.error IssueError.InvalidExpiry ∧
    issueStoreAfter [(⟨2, "u", Role.USER, true⟩ : Principal)] [] 10 100 "ci" 2 none ['a']
      = [] := by
  refine ⟨?_, ?_, ?_⟩
  · refine (issuance_preconditions [⟨2, "u", Role.USER, true⟩] [] 10 100 "ci" 2 none
      ['a']).1 ?_
    intro p hp hcontra
    rw [show findPrincipal 2 [(⟨2, "u", Role.USER, true⟩ : Principal)]
      = some ⟨2, "u", Role.USER, true⟩ from rfl] at hp
    cases hp
    exact absurd hcontra.1 (by decide)
  · exact (issuance_preconditions [⟨1, "svc", Role.SERVICE_ACCOUNT, true⟩] [] 10 100 "ci" 1
      (some 10) ['a']).2.1 ⟨1, "svc", Role.SERVICE_ACCOUNT, true⟩ 10 (by rfl)
      ⟨rfl, rfl⟩ rfl (by decide)
  · exact (issuance_preconditions [⟨2, "u", Role.USER, true⟩] [] 10 100 "ci" 2 none
      ['a']).2.2 IssueError.InvalidOwner (by rfl)

lemma toView_eq_of_agree (a b : ApiToken) (h : agreeExceptHash a b) :
    toView a = toView b := by
  obtain ⟨h1, h2, h3, h4, h5, h6⟩ := h
  simp [toView, h1, h2, h3, h4, h5, h6]

lemma sameExceptHash_filterOwner (o : Nat) (s1 : TokenStore) :
    ∀ s2, sameExceptHash s1 s2 →
      sameExceptHash (s1.filter (fun t => t.owner_id == o))
        (s2.filter (fun t => t.owner_id == o)) := by
  induction s1 with
  | nil =>
    intro s2 h
    cases s2 with
    | nil => exact trivial
    | cons u us => exact absurd h (by simp [sameExceptHash])
  | cons t ts ih =>
    intro s2 h
    cases s2 with
    | nil => exact absurd h (by simp [sameExceptHash])
    | cons u us =>
      obtain ⟨hagree, hrest⟩ := h
      by_cases ho : (t.owner_id == o) = true
      · have ho2 : (u.owner_id == o) = true := by rw [← hagree.2.2.1]; exact ho
        simp only [List.filter_cons, ho, ho2]
        exact ⟨hagree, ih us hrest⟩
      · have ho1 : (t.owner_id == o) = false := by simpa using ho
        have ho2 : (u.owner_id == o) = false := by rw [← hagree.2.2.1]; exact ho1
        simp only [List.filter_cons, ho1, ho2]
        exact ih us hrest

lemma sameExceptHash_insert (t u : ApiToken) (h : agreeExceptHash t u)
    (l1 : List ApiToken) :
    ∀ l2, sameExceptHash l1 l2 →
      sameExceptHash (insertByCreatedDesc t l1) (insertByCreatedDesc u l2) := by
  induction l1 with
  | nil =>
    intro l2 hl
    cases l2 with
    | nil => exact ⟨h, trivial⟩
    | cons v vs => exact absurd hl (by simp [sameExceptHash])
  | cons a as ih =>
    intro l2 hl
    cases l2 with
    | nil => exact absurd hl (by simp [sameExceptHash])
    | cons b bs =>
      obtain ⟨hab, hrest⟩ := hl
      unfold insertByCreatedDesc
      by_cases hc : a.created_at ≤ t.created_at
      · have hc2 : b.created_at ≤ u.created_at := by
          rw [← hab.2.2.2.1, ← h.2.2.2.1]; exact hc
        rw [if_pos hc, if_pos hc2]
        exact ⟨h, hab, hrest⟩
      · have hc2 : ¬ b.created_at ≤ u.created_at := by
          rw [← hab.2.2.2.1, ← h.2.2.2.1]; exact hc
        rw [if_neg hc, if_neg hc2]
        exact ⟨hab, ih bs hrest⟩

lemma sameExceptHash_sort (l1 : List ApiToken) :
    ∀ l2, sameExceptHash l1 l2 →
      sameExceptHash (sortByCreatedDesc l1) (sortByCreatedDesc l2) := by
  induction l1 with
  | nil =>
    intro l2 hl
    cases l2 with
    | nil => exact trivial
    | cons v vs => exact absurd hl (by simp [sameExceptHash])
  | cons a as ih =>
    intro l2 hl
    cases l2 with
    | nil => exact absurd hl (by simp [sameExceptHash])
    | cons b bs =>
      obtain ⟨hab, hrest⟩ := hl
      exact sameExceptHash_insert a b hab _ _ (ih bs hrest)

lemma map_toView_congr (l1 : List ApiToken) :
    ∀ l2, sameExceptHash l1 l2 → l1.map toView = l2.map toView := by
  induction l1 with
  | nil =>
    intro l2 hl
    cases l2 with
    | nil => rfl
    | cons v vs => exact absurd hl (by simp [sameExceptHash])
  | cons a as ih =>
    intro l2 hl
    cases l2 with
    | nil => exact absurd hl (by simp [sameExceptHash])
    | cons b bs =>
      obtain ⟨hab, hrest⟩ := hl
      simp only [List.map_cons, toView_eq_of_agree a b hab, ih bs hrest]

/-- Claim C7 — secret non-exposure after issuance: the token listing
projects away the token_hash (and the raw secret is never stored), so its
output is identical for any two store states that differ only in the
token_hash values of their rows. -/
theorem listing_excludes_hash (filt : Option Nat) (s1 s2 : TokenStore)
    (h : sameExceptHash s1 s2) : listTokens filt s1 = listTokens filt s2 := by
  unfold listTokens
  cases filt with
  | none => exact map_toView_congr _ _ (sameExceptHash_sort _ _ h)
  | some o =>
    exact map_toView_congr _ _
      (sameExceptHash_sort _ _ (sameExceptHash_filterOwner o _ _ h))

/-- Witness for C7: two stores whose single rows differ only in hash have
identical listings. -/
theorem listing_excludes_hash_witness :
    listTokens none [(⟨1, "a", 5, 2, 3, none, false⟩ : ApiToken)]
      = listTokens none [(⟨1, "a", 987654321, 2, 3, none, false⟩ : ApiToken)] :=
  listing_excludes_hash none [⟨1, "a", 5, 2, 3, none, false⟩]
    [⟨1, "a", 987654321, 2, 3, none, false⟩]
    ⟨⟨rfl, rfl, rfl, rfl, rfl, rfl⟩, trivial⟩

/-- Claim C8 — unguarded duplicate upload route: the route table returned
by createRoutes contains the '/upload' child nested under the
ProtectedRoute element and, in addition, a second top-level entry with
path '/upload' whose element is the Upload page, which is not nested
under ProtectedRoute. -/
theorem unguarded_upload_route :
    (∃ r ∈ createRoutes, r.element = some UIElement.protectedRouteEl ∧
      RouteObject.mk (some "/upload") (some UIElement.uploadPage) [] ∈ r.children) ∧
    RouteObject.mk (some "/upload") (some UIElement.uploadPage) [] ∈ createRoutes ∧
    (RouteObject.mk (some "/upload") (some UIElement.uploadPage) []).element
      ≠ some UIElement.protectedRouteEl := by
  refine ⟨⟨RouteObject.mk none (some UIElement.protectedRouteEl)
      [RouteObject.mk (some "/upload") (some UIElement.uploadPage) []], ?_, rfl, ?_⟩, ?_, ?_⟩
  · unfold createRoutes
    exact List.mem_cons_of_mem _ (List.mem_cons_of_mem _ (List.mem_cons_of_mem _
      (List.mem_cons_of_mem _ (List.mem_cons_of_mem _ (List.mem_cons_self _ _)))))
  · exact List.mem_cons_self _ _
  · unfold createRoutes
    exact List.mem_cons_of_mem _ (List.mem_cons_of_mem _ (List.mem_cons_of_mem _
      (List.mem_cons_of_mem _ (List.mem_cons_of_mem _ (List.mem_cons_of_mem _
        (List.mem_cons_self _ _))))))
  · intro hcontra
    exact absurd (Option.some.inj hcontra) (by intro h; cases h)

/-- Claim C9 — ProtectedRoute gating: the protected Outlet renders if and
only if loading is false and isAuthenticated is true; loading renders the
checking indicator; a settled unauthenticated state renders the
LoginCard. -/
theorem protectedRoute_gating (a : AuthState) :
    (ProtectedRoute a = ProtectedRender.outlet ↔
      (a.loading = false ∧ a.isAuthenticated = true)) ∧
    (a.loading = true → ProtectedRoute a = ProtectedRender.checkingAuth) ∧
    (a.loading = false → a.isAuthenticated = false →
      ProtectedRoute a = ProtectedRender.loginCard) := by
  rcases a with ⟨auth, load⟩
  cases auth <;> cases load <;> decide

/-- Witness for C9: an authenticated, settled state renders the Outlet. -/
theorem protectedRoute_gating_witness :
    ProtectedRoute ⟨true, false⟩ = ProtectedRender.outlet :=
  (protectedRoute_gating ⟨true, false⟩).1.mpr ⟨rfl, rfl⟩

/-- Claim C10 — field-edit permission invariant: canEditSimulationField
returns false whenever the field is a system field or not editable after
creation, and otherwise returns true exactly when the admin or owner
clause applies to the context. -/
theorem canEdit_permission (field : SimulationFieldDef) (ctx : EditContext) :
    ((field.system = true ∨ field.editableAfterCreate = false) →
      canEditSimulationField field ctx = false) ∧
    (field.system = false → field.editableAfterCreate = true →
      (canEditSimulationField field ctx = true ↔
        ((field.editableByAdmin && ctx.isAdmin)
          || (field.editableByOwner && ctx.isOwner)) = true)) := by
  rcases field with ⟨n, l, eac, ebo, eba, sys⟩
  rcases ctx with ⟨iso, isa⟩
  cases eac <;> cases ebo <;> cases eba <;> cases sys <;> cases iso <;> cases isa <;>
    simp [canEditSimulationField]

/-- Witness for C10: an admin may edit the admin-editable status field. -/
theorem canEdit_permission_witness :
    canEditSimulationField ⟨"status", "Status", true, false, true, false⟩
      ⟨false, true⟩ = true :=
  ((canEdit_permission ⟨"status", "Status", true, false, true, false⟩
    ⟨false, true⟩).2 rfl rfl).mpr rfl

end SimBoard
